import Mathlib

/-!
Shallow embedding of the Beat Grid Engine of the mvforge renderer.

JavaScript number arithmetic is modelled over `ℚ` (exact rationals);
`Math.round` is `⌊x + 1/2⌋` (ties toward positive infinity), the JS `%`
operator is remainder with truncated division, and `toFixed(n)` followed by
`parseFloat` is rounding to `n` decimal places with ties toward positive
infinity.  Each definition mirrors the function of the same name in the
renderer source.
-/

namespace MVForge

/-- The rhythmic class strings produced by `classifyBeat`. -/
inductive BeatClass where
  | downbeat
  | half
  | quarter
  | offbeat
deriving DecidableEq, Repr

/-- The four derived interval lengths, as returned by `calcGrid`. -/
structure Grid where
  eighth_note : ℚ
  quarter_note : ℚ
  half_note : ℚ
  downbeat_whole : ℚ
deriving DecidableEq, Repr

/-- `calcGrid(bpm)`: `q = 60.0 / bpm`, intervals `q/2, q, q*2, q*4`. -/
def calcGrid (bpm : ℚ) : Grid :=
  let q := 60 / bpm
  { eighth_note := q / 2
    quarter_note := q
    half_note := q * 2
    downbeat_whole := q * 4 }

/-- JS `Math.round`: the nearest integer, ties toward positive infinity. -/
def jsRound (x : ℚ) : ℤ := ⌊x + 1 / 2⌋

/-- `snapToGrid(t, eighth) = Math.round(t / eighth) * eighth`. -/
def snapToGrid (t eighth : ℚ) : ℚ := (jsRound (t / eighth) : ℚ) * eighth

/-- Truncation toward zero, the integer quotient underlying the JS `%`. -/
def jsTrunc (x : ℚ) : ℤ := if x < 0 then -⌊-x⌋ else ⌊x⌋

/-- The JS remainder operator `a % b` (takes the sign of the dividend). -/
def jsMod (a b : ℚ) : ℚ := a - b * (jsTrunc (a / b) : ℚ)

/-- The classification tolerance `eps = 1e-4` of `classifyBeat`. -/
def eps : ℚ := 1 / 10000

/-- The `near(v, mod)` helper of `classifyBeat`:
`r = ((v % mod) + mod) % mod; r < eps || (mod - r) < eps`. -/
def near (v m : ℚ) : Bool :=
  let r := jsMod (jsMod v m + m) m
  decide (r < eps) || decide (m - r < eps)

/-- `classifyBeat(snapped, grid)`: first match among downbeat, half, quarter;
otherwise offbeat. -/
def classifyBeat (snapped : ℚ) (grid : Grid) : BeatClass :=
  if near snapped grid.downbeat_whole then .downbeat
  else if near snapped grid.half_note then .half
  else if near snapped grid.quarter_note then .quarter
  else .offbeat

/-- `parseFloat(x.toFixed(4))`: rounding to 4 decimal places. -/
def round4 (x : ℚ) : ℚ := (jsRound (x * 10000) : ℚ) / 10000

/-- `Math.round(x * 100) / 100`: rounding to 2 decimal places. -/
def round2 (x : ℚ) : ℚ := (jsRound (x * 100) : ℚ) / 100

/-- `parseFloat(x.toFixed(6))`: rounding to 6 decimal places. -/
def round6 (x : ℚ) : ℚ := (jsRound (x * 1000000) : ℚ) / 1000000

/-- One raw input word `{word, start}` as consumed by `processWords`. -/
structure RawWord where
  word : String
  start : ℚ
deriving DecidableEq, Repr

/-- One aligned word of `state.lyricsGrid`. -/
structure GridEntry where
  word : String
  raw_start : ℚ
  snapped_start : ℚ
  type : BeatClass
deriving DecidableEq, Repr

/-- `processWords(words)`: snap and classify each word against the grid,
storing `raw_start` and `snapped_start` rounded to 4 decimal places. -/
def processWords (words : List RawWord) (grid : Grid) : List GridEntry :=
  words.map fun w =>
    let raw := w.start
    let snapped := snapToGrid raw grid.eighth_note
    { word := w.word
      raw_start := round4 raw
      snapped_start := round4 snapped
      type := classifyBeat snapped grid }

/-- `text.trim().split(/\s+/).filter(Boolean)`: whitespace tokenization
discarding empty tokens. -/
def tokenize (text : String) : List String :=
  (text.split Char.isWhitespace).filter (fun s => s ≠ "")

/-- The word list built by `distributeManualLyrics`:
`totalBeats = Math.floor(duration / quarter)`,
`step = Math.max(1, Math.floor(totalBeats / words.length))`,
word `i` getting start `i * step * quarter`. -/
def manualStarts (duration : ℚ) (grid : Grid) (words : List String) : List RawWord :=
  let totalBeats : ℤ := ⌊duration / grid.quarter_note⌋
  let step : ℤ := max 1 ⌊(totalBeats : ℚ) / (words.length : ℚ)⌋
  words.mapIdx fun i word =>
    { word := word, start := (i : ℚ) * (step : ℚ) * grid.quarter_note }

/-- `distributeManualLyrics(text)`: tokenize, spread over quarter-note slots,
then feed the synthetic `{word, start}` pairs to `processWords`. -/
def distributeManualLyrics (text : String) (duration : ℚ) (grid : Grid) :
    List GridEntry :=
  processWords (manualStarts duration grid (tokenize text)) grid

/-- The session fields touched by the grid pipeline (`state` in the source). -/
structure Session where
  bpm : Option ℚ
  duration : Option ℚ
  grid : Option Grid
  lyricsGrid : List GridEntry
deriving DecidableEq, Repr

/-- `applyBPM(bpm)`: reject non-positive input, recompute the grid, and when
entries exist re-run `processWords` on each entry's raw timestamp. -/
def applyBPM (bpm : ℚ) (s : Session) : Session :=
  if bpm ≤ 0 then s
  else
    let grid := calcGrid bpm
    let entries :=
      if s.lyricsGrid.length ≠ 0 then
        processWords (s.lyricsGrid.map fun e => { word := e.word, start := e.raw_start }) grid
      else s.lyricsGrid
    { s with bpm := some bpm, grid := some grid, lyricsGrid := entries }

/-- `detectBPM`: the external tempo detector either throws (`Except.error`)
or yields a tempo; in-range results are rounded to one decimal, everything
else becomes `null`. -/
def detectBPM (raw : Except Unit ℚ) : Option ℚ :=
  match raw with
  | .error _ => none
  | .ok bpm => if 40 ≤ bpm ∧ bpm ≤ 280 then some ((jsRound (bpm * 10) : ℚ) / 10) else none

/-- The BPM portion of `handleFile`: `applyBPM(detected || 120)`, and when
detection failed, the status message asking for manual BPM entry (the
returned `Bool`). -/
def handleFileBPM (raw : Except Unit ℚ) (s : Session) : Session × Bool :=
  let detected := detectBPM raw
  (applyBPM (detected.getD 120) s, detected.isNone)

/-- The `redetectBtn` click handler: `if (bpm) applyBPM(bpm); setStatus(null)`
(the returned `Bool` is the manual-entry signal, always cleared here). -/
def redetectBPM (raw : Except Unit ℚ) (s : Session) : Session × Bool :=
  match detectBPM raw with
  | some bpm => (applyBPM bpm s, false)
  | none => (s, false)

/-- One footage clip (display name and duration in seconds). -/
structure Clip where
  name : String
  duration : ℚ
deriving DecidableEq, Repr

/-- The quantities computed by `updateFootageTracker`. -/
structure FootageStats where
  rawPct : ℚ
  displayPct : ℚ
  remaining : ℚ
  done : Bool
  over : Bool
  pctLabel : ℤ
deriving DecidableEq, Repr

/-- `updateFootageTracker()`: accumulate clip durations against the song
duration (`state.duration || 0`); the fill bar uses `displayPct`, the numeric
label shows `Math.round(rawPct)`. -/
def updateFootageTracker (duration : Option ℚ) (clips : List Clip) : FootageStats :=
  let songDur := duration.getD 0
  let totalClip := clips.foldl (fun s c => s + c.duration) 0
  let rawPct := if 0 < songDur then totalClip / songDur * 100 else 0
  { rawPct := rawPct
    displayPct := min rawPct 100
    remaining := max (songDur - totalClip) 0
    done := decide (100 ≤ rawPct)
    over := decide (100 < rawPct)
    pctLabel := jsRound rawPct }

/-- The `metadata` object of `buildJSON`. -/
structure ExportMeta where
  track : String
  bpm : ℚ
  duration_seconds : ℚ
  quarter_note : ℚ
  eighth_note : ℚ
  half_note : ℚ
  downbeat_whole : ℚ
deriving DecidableEq, Repr

/-- The object serialized by `buildJSON`. -/
structure ExportJSON where
  metadata : ExportMeta
  lyrics_grid : List GridEntry
deriving DecidableEq, Repr

/-- `buildJSON()`: metadata with rounded tempo, duration and intervals, and
`lyrics_grid` taken verbatim from `state.lyricsGrid`. -/
def buildJSON (track : String) (bpm duration : ℚ) (grid : Grid)
    (lyricsGrid : List GridEntry) : ExportJSON :=
  { metadata :=
      { track := track
        bpm := round2 bpm
        duration_seconds := round2 duration
        quarter_note := round6 grid.quarter_note
        eighth_note := round6 grid.eighth_note
        half_note := round6 grid.half_note
        downbeat_whole := round6 grid.downbeat_whole }
    lyrics_grid := lyricsGrid }

/-- Rendering of §4.3 of the specification, for comparison with
`classifyBeat`: the three coarser interval families in a list ordered
coarsest first, first `near` match wins, `offbeat` when none match. -/
def classifyBeatSpec (v : ℚ) (g : Grid) : BeatClass :=
  match [(g.downbeat_whole, BeatClass.downbeat),
         (g.half_note, BeatClass.half),
         (g.quarter_note, BeatClass.quarter)].find? (fun p => near v p.1) with
  | some p => p.2
  | none => BeatClass.offbeat

/-! ## Basic lemmas about the rounding helpers -/

theorem jsRound_eq_round (x : ℚ) : jsRound x = round x := (round_eq x).symm

theorem jsRound_intCast (k : ℤ) : jsRound (k : ℚ) = k := by
  rw [jsRound_eq_round]; exact round_intCast k

theorem jsRound_nonneg (x : ℚ) (hx : 0 ≤ x) : 0 ≤ jsRound x := by
  unfold jsRound
  exact Int.le_floor.mpr (by push_cast; linarith)

theorem abs_round4_sub (x : ℚ) : |round4 x - x| ≤ 1 / 20000 := by
  have h : |(round (x * 10000) : ℚ) - x * 10000| ≤ 1 / 2 := by
    rw [abs_sub_comm]; exact abs_sub_round (x * 10000)
  have hrw : round4 x - x = ((round (x * 10000) : ℚ) - x * 10000) / 10000 := by
    rw [round4, jsRound_eq_round]; ring
  rw [hrw, abs_div, abs_of_pos (by norm_num : (0 : ℚ) < 10000)]
  linarith

theorem round4_idem (x : ℚ) : round4 (round4 x) = round4 x := by
  have h : round4 x * 10000 = (jsRound (x * 10000) : ℚ) := by
    rw [round4]; field_simp
  rw [round4, h, jsRound_intCast]
  rfl

theorem jsTrunc_intCast (k : ℤ) : jsTrunc (k : ℚ) = k := by
  unfold jsTrunc
  split_ifs with h
  · rw [← Int.cast_neg, Int.floor_intCast]; ring
  · exact Int.floor_intCast k

/-! ## Lemmas about snapping and classification -/

theorem snapToGrid_idem_of_ne (t e : ℚ) (he : e ≠ 0) :
    snapToGrid (snapToGrid t e) e = snapToGrid t e := by
  unfold snapToGrid
  rw [mul_div_cancel_right₀ _ he, jsRound_intCast]

theorem near_intCast_mul (k : ℤ) (m : ℚ) (hm : m ≠ 0) : near ((k : ℚ) * m) m = true := by
  have h2 : jsMod ((k : ℚ) * m) m = 0 := by
    unfold jsMod
    rw [mul_div_cancel_right₀ _ hm, jsTrunc_intCast]
    ring
  have h1 : jsTrunc ((1 : ℚ)) = 1 := by
    have := jsTrunc_intCast 1
    simpa using this
  have h3 : jsMod (0 + m) m = 0 := by
    unfold jsMod
    rw [zero_add, div_self hm, h1]
    push_cast
    ring
  simp only [near, h2, h3, eps]
  norm_num

theorem classifyBeat_of_near_downbeat (v : ℚ) (g : Grid)
    (h : near v g.downbeat_whole = true) : classifyBeat v g = .downbeat := by
  simp [classifyBeat, h]

/-! ## Lemmas about processWords -/

theorem processWords_snapped_mult (g : Grid) (he : 0 < g.eighth_note)
    (words : List RawWord) (hw : ∀ w ∈ words, 0 ≤ w.start) :
    ∀ ent ∈ processWords words g, ∃ k : ℕ,
      ent.snapped_start = round4 ((k : ℚ) * g.eighth_note) ∧
      |ent.snapped_start - (k : ℚ) * g.eighth_note| ≤ 1 / 20000 := by
  intro ent hent
  rw [processWords, List.mem_map] at hent
  obtain ⟨w, hwmem, rfl⟩ := hent
  have h0 : 0 ≤ w.start / g.eighth_note := div_nonneg (hw w hwmem) he.le
  have hk0 : 0 ≤ jsRound (w.start / g.eighth_note) := jsRound_nonneg _ h0
  refine ⟨(jsRound (w.start / g.eighth_note)).toNat, ?_, ?_⟩
  · show round4 (snapToGrid w.start g.eighth_note) = _
    rw [snapToGrid]
    congr 2
    exact_mod_cast (Int.toNat_of_nonneg hk0).symm
  · show |round4 (snapToGrid w.start g.eighth_note) - _| ≤ 1 / 20000
    have hc : (((jsRound (w.start / g.eighth_note)).toNat : ℕ) : ℚ) =
        ((jsRound (w.start / g.eighth_note) : ℤ) : ℚ) := by
      exact_mod_cast Int.toNat_of_nonneg hk0
    rw [snapToGrid, hc]
    exact abs_round4_sub _

theorem processWords_raw_fix (words : List RawWord) (g : Grid) :
    ∀ ent ∈ processWords words g,
      round4 ent.raw_start = ent.raw_start ∧
      round4 ent.snapped_start = ent.snapped_start := by
  intro ent hent
  rw [processWords, List.mem_map] at hent
  obtain ⟨w, _, rfl⟩ := hent
  exact ⟨round4_idem _, round4_idem _⟩

theorem processWords_map_raw (words : List RawWord) (g : Grid) :
    (processWords words g).map (fun e => RawWord.mk e.word e.raw_start) =
      words.map (fun w => RawWord.mk w.word (round4 w.start)) := by
  rw [processWords, List.map_map]
  rfl

theorem map_raw_fix (l : List GridEntry)
    (h : ∀ e ∈ l, round4 e.raw_start = e.raw_start) :
    (l.map fun e => RawWord.mk e.word e.raw_start).map
        (fun w => RawWord.mk w.word (round4 w.start)) =
      l.map fun e => RawWord.mk e.word e.raw_start := by
  rw [List.map_map]
  apply List.map_congr_left
  intro e he
  simp [Function.comp, h e he]

/-! ## Lemmas about mapIdx indexing -/

theorem getElem?_mapIdx : ∀ (l : List α) (f : ℕ → α → β) (i : ℕ),
    (l.mapIdx f)[i]? = l[i]?.map (f i)
  | [], _, _ => by simp
  | a :: l, f, 0 => by simp [List.mapIdx_cons]
  | a :: l, f, i + 1 => by
    simp only [List.mapIdx_cons, List.getElem?_cons_succ]
    exact getElem?_mapIdx l (fun j => f (j + 1)) i

/-! ## Claim theorems -/

/-- C1: for every tempo `b > 0`, `calcGrid` returns exactly the four
intervals `quarter = 60/b`, `eighth = (60/b)/2`, `half = 2*(60/b)` and
`downbeat = 4*(60/b)` seconds. -/
theorem calcGrid_intervals (b : ℚ) (hb : 0 < b) :
    calcGrid b =
      { eighth_note := 60 / b / 2
        quarter_note := 60 / b
        half_note := 2 * (60 / b)
        downbeat_whole := 4 * (60 / b) } := by
  have h : calcGrid b =
      { eighth_note := 60 / b / 2
        quarter_note := 60 / b
        half_note := 60 / b * 2
        downbeat_whole := 60 / b * 4 } := rfl
  rw [h]
  simp only [Grid.mk.injEq]
  exact ⟨trivial, trivial, by ring, by ring⟩

/-- C1 witness at tempo 120. -/
theorem calcGrid_intervals_witness :
    (0 : ℚ) < 120 ∧
      calcGrid 120 =
        { eighth_note := 60 / 120 / 2
          quarter_note := 60 / 120
          half_note := 2 * (60 / 120)
          downbeat_whole := 4 * (60 / 120) } :=
  ⟨by norm_num, calcGrid_intervals 120 (by norm_num)⟩

/-- C2: for `t ≥ 0` and an eighth interval `e > 0`, `snapToGrid t e` is
`round(t/e) * e`, the nearest multiple of `e`; in particular at tempo 120
(`eighth = 0.25`) the raw time 2.05 s snaps to 2.0 s and that snapped value
classifies as downbeat. -/
theorem snapToGrid_nearest (t e : ℚ) (ht : 0 ≤ t) (he : 0 < e) :
    (snapToGrid t e = (jsRound (t / e) : ℚ) * e ∧
      ∀ k : ℤ, |snapToGrid t e - t| ≤ |(k : ℚ) * e - t|) ∧
    (calcGrid 120).eighth_note = 0.25 ∧
    snapToGrid 2.05 0.25 = 2 ∧
    classifyBeat (snapToGrid 2.05 0.25) (calcGrid 120) = BeatClass.downbeat := by
  have hsnap : snapToGrid 2.05 0.25 = 2 := by norm_num [snapToGrid, jsRound]
  refine ⟨⟨rfl, ?_⟩, by norm_num [calcGrid], hsnap, ?_⟩
  · intro k
    have hxe : t / e * e = t := div_mul_cancel₀ t he.ne'
    have h1 : snapToGrid t e - t = ((round (t / e) : ℚ) - t / e) * e := by
      rw [snapToGrid, jsRound_eq_round]
      calc (round (t / e) : ℚ) * e - t
          = (round (t / e) : ℚ) * e - t / e * e := by rw [hxe]
        _ = ((round (t / e) : ℚ) - t / e) * e := by ring
    have h2 : (k : ℚ) * e - t = ((k : ℚ) - t / e) * e := by
      calc (k : ℚ) * e - t = (k : ℚ) * e - t / e * e := by rw [hxe]
        _ = ((k : ℚ) - t / e) * e := by ring
    rw [h1, h2, abs_mul, abs_mul]
    have h3 : |(round (t / e) : ℚ) - t / e| ≤ |(k : ℚ) - t / e| := by
      rw [abs_sub_comm, abs_sub_comm ((k : ℚ)) _]
      exact round_le (t / e) k
    exact mul_le_mul_of_nonneg_right h3 (abs_nonneg e)
  · rw [hsnap]
    apply classifyBeat_of_near_downbeat
    have hdb : (calcGrid 120).downbeat_whole = 2 := by norm_num [calcGrid]
    rw [hdb]
    have := near_intCast_mul 1 2 (by norm_num)
    simpa using this

/-- C2 witness at `t = 2.05`, `e = 0.25`. -/
theorem snapToGrid_nearest_witness :
    (0 : ℚ) ≤ 2.05 ∧ (0 : ℚ) < 0.25 ∧
      ((snapToGrid 2.05 0.25 = (jsRound ((2.05 : ℚ) / 0.25) : ℚ) * 0.25 ∧
        ∀ k : ℤ, |snapToGrid 2.05 0.25 - 2.05| ≤ |(k : ℚ) * 0.25 - 2.05|) ∧
      (calcGrid 120).eighth_note = 0.25 ∧
      snapToGrid 2.05 0.25 = 2 ∧
      classifyBeat (snapToGrid 2.05 0.25) (calcGrid 120) = BeatClass.downbeat) :=
  ⟨by norm_num, by norm_num, snapToGrid_nearest 2.05 0.25 (by norm_num) (by norm_num)⟩

/-- C3: `classifyBeat` agrees with the specification's first-match test over
the families downbeat, half, quarter (in that order, offbeat as fallback),
is total with exactly the four classes as values, and sends every
`k * downbeat_whole` (integer `k ≥ 0`) of a tempo-derived grid to downbeat. -/
theorem classifyBeat_total_priority (b : ℚ) (hb : 0 < b) :
    (∀ v : ℚ, ∀ g : Grid, classifyBeat v g = classifyBeatSpec v g) ∧
    (∀ v : ℚ, ∀ g : Grid,
      classifyBeat v g = BeatClass.downbeat ∨ classifyBeat v g = BeatClass.half ∨
      classifyBeat v g = BeatClass.quarter ∨ classifyBeat v g = BeatClass.offbeat) ∧
    (∀ k : ℕ, classifyBeat ((k : ℚ) * (calcGrid b).downbeat_whole) (calcGrid b) =
      BeatClass.downbeat) := by
  refine ⟨?_, ?_, ?_⟩
  · intro v g
    unfold classifyBeat classifyBeatSpec
    cases h1 : near v g.downbeat_whole <;> cases h2 : near v g.half_note <;>
      cases h3 : near v g.quarter_note <;> simp [List.find?, h1, h2, h3]
  · intro v g
    unfold classifyBeat
    split_ifs <;> simp
  · intro k
    have hdb : (calcGrid b).downbeat_whole ≠ 0 := by
      have h : (0 : ℚ) < 60 / b * 4 := by positivity
      simpa [calcGrid] using h.ne'
    apply classifyBeat_of_near_downbeat
    have h := near_intCast_mul (k : ℤ) (calcGrid b).downbeat_whole hdb
    simpa using h

/-- C3 witness at tempo 120. -/
theorem classifyBeat_total_priority_witness :
    (0 : ℚ) < 120 ∧
      ((∀ v : ℚ, ∀ g : Grid, classifyBeat v g = classifyBeatSpec v g) ∧
      (∀ v : ℚ, ∀ g : Grid,
        classifyBeat v g = BeatClass.downbeat ∨ classifyBeat v g = BeatClass.half ∨
        classifyBeat v g = BeatClass.quarter ∨ classifyBeat v g = BeatClass.offbeat) ∧
      (∀ k : ℕ, classifyBeat ((k : ℚ) * (calcGrid 120).downbeat_whole) (calcGrid 120) =
        BeatClass.downbeat)) :=
  ⟨by norm_num, classifyBeat_total_priority 120 (by norm_num)⟩

/-- C8: snapping is idempotent: for `t ≥ 0` and `e > 0`,
`snapToGrid (snapToGrid t e) e = snapToGrid t e`. -/
theorem snapToGrid_idempotent (t e : ℚ) (ht : 0 ≤ t) (he : 0 < e) :
    snapToGrid (snapToGrid t e) e = snapToGrid t e :=
  snapToGrid_idem_of_ne t e he.ne'

/-- C8 witness at `t = 2.05`, `e = 0.25`. -/
theorem snapToGrid_idempotent_witness :
    (0 : ℚ) ≤ 2.05 ∧ (0 : ℚ) < 0.25 ∧
      snapToGrid (snapToGrid 2.05 0.25) 0.25 = snapToGrid 2.05 0.25 :=
  ⟨by norm_num, by norm_num, snapToGrid_idempotent 2.05 0.25 (by norm_num) (by norm_num)⟩

theorem exists_of_mem_mapIdx {α β : Type} {l : List α} {f : ℕ → α → β} {b : β}
    (h : b ∈ l.mapIdx f) : ∃ i a, b = f i a := by
  rw [List.mapIdx_eq_enum_map, List.mem_map] at h
  obtain ⟨⟨i, a⟩, _, rfl⟩ := h
  exact ⟨i, a, rfl⟩

theorem manualStarts_nonneg (d : ℚ) (g : Grid) (hq : 0 ≤ g.quarter_note)
    (ws : List String) : ∀ w ∈ manualStarts d g ws, 0 ≤ w.start := by
  intro w hw
  obtain ⟨i, a, rfl⟩ := exists_of_mem_mapIdx hw
  have h1 : (1 : ℤ) ≤ max 1 ⌊((⌊d / g.quarter_note⌋ : ℤ) : ℚ) / (ws.length : ℚ)⌋ :=
    le_max_left _ _
  have h2 : (0 : ℚ) ≤
      ((max 1 ⌊((⌊d / g.quarter_note⌋ : ℤ) : ℚ) / (ws.length : ℚ)⌋ : ℤ) : ℚ) := by
    exact_mod_cast le_trans zero_le_one h1
  exact mul_nonneg (mul_nonneg (Nat.cast_nonneg i) h2) hq

theorem applyBPM_lyricsGrid (b : ℚ) (s : Session) (hb : 0 < b) :
    (applyBPM b s).lyricsGrid =
      if s.lyricsGrid.length ≠ 0 then
        processWords (s.lyricsGrid.map fun e => { word := e.word, start := e.raw_start })
          (calcGrid b)
      else s.lyricsGrid := by
  rw [applyBPM, if_neg (not_le.mpr hb)]

theorem calcGrid_eighth_pos (b : ℚ) (hb : 0 < b) : 0 < (calcGrid b).eighth_note := by
  have h : (0 : ℚ) < 60 / b / 2 := by positivity
  simpa [calcGrid] using h

theorem calcGrid_quarter_pos (b : ℚ) (hb : 0 < b) : 0 < (calcGrid b).quarter_note := by
  have h : (0 : ℚ) < 60 / b := by positivity
  simpa [calcGrid] using h

/-- C4: on every entry-producing path (transcription via `processWords`, the
manual uniform-distribution path, and the re-tempo path through `applyBPM`),
each entry's snapped timestamp is a non-negative integer multiple of the
current grid's eighth-note interval up to the 4-decimal storage rounding
(so within `1/20000`); and the engine stores snapped values that exceed the
track duration unclamped. -/
theorem gridEntry_snapped_multiple (b : ℚ) (hb : 0 < b) :
    (∀ words : List RawWord, (∀ w ∈ words, 0 ≤ w.start) →
      ∀ ent ∈ processWords words (calcGrid b), ∃ k : ℕ,
        ent.snapped_start = round4 ((k : ℚ) * (calcGrid b).eighth_note) ∧
        |ent.snapped_start - (k : ℚ) * (calcGrid b).eighth_note| ≤ 1 / 20000) ∧
    (∀ text : String, ∀ d : ℚ,
      ∀ ent ∈ distributeManualLyrics text d (calcGrid b), ∃ k : ℕ,
        ent.snapped_start = round4 ((k : ℚ) * (calcGrid b).eighth_note) ∧
        |ent.snapped_start - (k : ℚ) * (calcGrid b).eighth_note| ≤ 1 / 20000) ∧
    (∀ s : Session, (∀ e ∈ s.lyricsGrid, 0 ≤ e.raw_start) →
      ∀ ent ∈ (applyBPM b s).lyricsGrid, ∃ k : ℕ,
        ent.snapped_start = round4 ((k : ℚ) * (calcGrid b).eighth_note) ∧
        |ent.snapped_start - (k : ℚ) * (calcGrid b).eighth_note| ≤ 1 / 20000) ∧
    ((processWords [{ word := "w", start := 89 / 100 }] (calcGrid 120)).map
        GridEntry.snapped_start = [1] ∧
      (89 : ℚ) / 100 ≤ 9 / 10 ∧ (9 : ℚ) / 10 < 1) := by
  have he : 0 < (calcGrid b).eighth_note := calcGrid_eighth_pos b hb
  refine ⟨fun words hw => processWords_snapped_mult _ he words hw, ?_, ?_, ?_⟩
  · intro text d
    exact processWords_snapped_mult _ he _
      (manualStarts_nonneg d (calcGrid b) (calcGrid_quarter_pos b hb).le (tokenize text))
  · intro s hs ent hent
    rw [applyBPM_lyricsGrid b s hb] at hent
    by_cases hlen : s.lyricsGrid.length ≠ 0
    · rw [if_pos hlen] at hent
      refine processWords_snapped_mult _ he _ ?_ ent hent
      intro w hw
      rw [List.mem_map] at hw
      obtain ⟨e, hemem, rfl⟩ := hw
      exact hs e hemem
    · rw [if_neg hlen] at hent
      rw [not_not, List.length_eq_zero] at hlen
      rw [hlen] at hent
      simp at hent
  · refine ⟨?_, by norm_num, by norm_num⟩
    norm_num [processWords, snapToGrid, jsRound, round4, calcGrid]

/-- C4 witness: tempo 120, one transcription word at 0.3 s, one manual text,
one session re-tempo. -/
theorem gridEntry_snapped_multiple_witness :
    (0 : ℚ) < 120 ∧
      ((∀ words : List RawWord, (∀ w ∈ words, 0 ≤ w.start) →
        ∀ ent ∈ processWords words (calcGrid 120), ∃ k : ℕ,
          ent.snapped_start = round4 ((k : ℚ) * (calcGrid 120).eighth_note) ∧
          |ent.snapped_start - (k : ℚ) * (calcGrid 120).eighth_note| ≤ 1 / 20000) ∧
      (∀ text : String, ∀ d : ℚ,
        ∀ ent ∈ distributeManualLyrics text d (calcGrid 120), ∃ k : ℕ,
          ent.snapped_start = round4 ((k : ℚ) * (calcGrid 120).eighth_note) ∧
          |ent.snapped_start - (k : ℚ) * (calcGrid 120).eighth_note| ≤ 1 / 20000) ∧
      (∀ s : Session, (∀ e ∈ s.lyricsGrid, 0 ≤ e.raw_start) →
        ∀ ent ∈ (applyBPM 120 s).lyricsGrid, ∃ k : ℕ,
          ent.snapped_start = round4 ((k : ℚ) * (calcGrid 120).eighth_note) ∧
          |ent.snapped_start - (k : ℚ) * (calcGrid 120).eighth_note| ≤ 1 / 20000) ∧
      ((processWords [{ word := "w", start := 89 / 100 }] (calcGrid 120)).map
          GridEntry.snapped_start = [1] ∧
        (89 : ℚ) / 100 ≤ 9 / 10 ∧ (9 : ℚ) / 10 < 1)) :=
  ⟨by norm_num, gridEntry_snapped_multiple 120 (by norm_num)⟩

theorem processWords_length (words : List RawWord) (g : Grid) :
    (processWords words g).length = words.length := by
  rw [processWords, List.length_map]

/-- C5: `applyBPM` rebuilds the whole entry sequence from each entry's raw
timestamp against the new grid, and applying the same tempo twice leaves the
session unchanged (entries in the session always carry 4-decimal raw
timestamps, which `processWords` guarantees). -/
theorem applyBPM_retempo (b : ℚ) (s : Session)
    (hraw : ∀ e ∈ s.lyricsGrid, round4 e.raw_start = e.raw_start) :
    applyBPM b (applyBPM b s) = applyBPM b s ∧
    (0 < b → s.lyricsGrid ≠ [] →
      (applyBPM b s).lyricsGrid =
        processWords (s.lyricsGrid.map fun e => { word := e.word, start := e.raw_start })
          (calcGrid b)) := by
  by_cases hb : b ≤ 0
  · constructor
    · rw [applyBPM, if_pos hb, applyBPM, if_pos hb]
    · intro hpos
      exact absurd hpos (not_lt.mpr hb)
  · have hb' : 0 < b := not_le.mp hb
    have hGrid : ∀ st : Session, (applyBPM b st).bpm = some b ∧
        (applyBPM b st).duration = st.duration ∧
        (applyBPM b st).grid = some (calcGrid b) := by
      intro st
      rw [applyBPM, if_neg hb]
      exact ⟨rfl, rfl, rfl⟩
    constructor
    · have hL : (applyBPM b (applyBPM b s)).lyricsGrid = (applyBPM b s).lyricsGrid := by
        rw [applyBPM_lyricsGrid b (applyBPM b s) hb', applyBPM_lyricsGrid b s hb']
        by_cases hlen : s.lyricsGrid.length ≠ 0
        · rw [if_pos hlen, if_pos ?hideg]
          case hideg =>
            rw [processWords_length, List.length_map]
            exact hlen
          refine congrArg (fun l => processWords l (calcGrid b)) ?_
          calc (processWords (s.lyricsGrid.map fun e => RawWord.mk e.word e.raw_start)
                  (calcGrid b)).map (fun e => RawWord.mk e.word e.raw_start)
              = (s.lyricsGrid.map fun e => RawWord.mk e.word e.raw_start).map
                  (fun w => RawWord.mk w.word (round4 w.start)) :=
                processWords_map_raw _ _
            _ = s.lyricsGrid.map fun e => RawWord.mk e.word e.raw_start :=
                map_raw_fix s.lyricsGrid hraw
        · rw [if_neg hlen, if_neg ?hideg2]
          case hideg2 => exact hlen
      obtain ⟨hb1, hd1, hg1⟩ := hGrid s
      obtain ⟨hb2, hd2, hg2⟩ := hGrid (applyBPM b s)
      have hmk : ∀ t u : Session, t.bpm = u.bpm → t.duration = u.duration →
          t.grid = u.grid → t.lyricsGrid = u.lyricsGrid → t = u := by
        intro t u h1 h2 h3 h4
        cases t
        cases u
        simp only [Session.mk.injEq]
        exact ⟨h1, h2, h3, h4⟩
      exact hmk _ _ (by rw [hb2, hb1]) (by rw [hd2, hd1]) (by rw [hg2, hg1]) hL
    · intro _ hne
      rw [applyBPM_lyricsGrid b s hb',
        if_pos (fun h => hne (List.length_eq_zero.mp h))]

/-- A concrete aligned entry, used to instantiate the session lemmas. -/
def sampleEntry : GridEntry :=
  { word := "a", raw_start := 1 / 2, snapped_start := 1 / 2, type := BeatClass.quarter }

/-- A concrete loaded session with one entry, used to instantiate the
session lemmas. -/
def sampleSession : Session :=
  { bpm := some 120, duration := some 10, grid := some (calcGrid 120),
    lyricsGrid := [sampleEntry] }

/-- C5 witness: a session with one 4-decimal entry, tempo 120 twice. -/
theorem applyBPM_retempo_witness :
    (∀ e ∈ sampleSession.lyricsGrid, round4 e.raw_start = e.raw_start) ∧
    (applyBPM 120 (applyBPM 120 sampleSession) = applyBPM 120 sampleSession ∧
    ((0 : ℚ) < 120 → sampleSession.lyricsGrid ≠ [] →
      (applyBPM 120 sampleSession).lyricsGrid =
        processWords
          (sampleSession.lyricsGrid.map fun e => { word := e.word, start := e.raw_start })
          (calcGrid 120))) := by
  have hfix : ∀ e ∈ sampleSession.lyricsGrid, round4 e.raw_start = e.raw_start := by
    intro e he
    simp only [sampleSession, List.mem_singleton] at he
    subst he
    show round4 ((1 : ℚ) / 2) = 1 / 2
    norm_num [round4, jsRound]
  exact ⟨hfix, applyBPM_retempo 120 sampleSession hfix⟩

/-- Ten words, for the uniform-distribution scenario. -/
def tenWords : List String :=
  ["w0", "w1", "w2", "w3", "w4", "w5", "w6", "w7", "w8", "w9"]

theorem manualStarts_getElem? (d : ℚ) (g : Grid) (ws : List String) (i : ℕ)
    (w : String) (hw : ws[i]? = some w) :
    (manualStarts d g ws)[i]? = some
      { word := w
        start := (i : ℚ) *
          ((max 1 ⌊((⌊d / g.quarter_note⌋ : ℤ) : ℚ) / (ws.length : ℚ)⌋ : ℤ) : ℚ) *
          g.quarter_note } := by
  have h := getElem?_mapIdx ws
    (fun j word => RawWord.mk word ((j : ℚ) *
      ((max 1 ⌊((⌊d / g.quarter_note⌋ : ℤ) : ℚ) / (ws.length : ℚ)⌋ : ℤ) : ℚ) *
      g.quarter_note)) i
  calc (manualStarts d g ws)[i]? = ws[i]?.map _ := h
    _ = _ := by rw [hw]; rfl

/-- C6: the uniform-distribution path assigns word `i` the raw timestamp
`i * step * quarter` with `totalBeats = floor(duration/quarter)` and
`step = max(1, floor(totalBeats/wordCount))`, feeding `processWords` without
any bound checking; with tempo 100, duration 30 s and 10 words this gives
`quarter = 0.6`, `totalBeats = 50`, `step = 5`, and word 3 starts at 9.0 s. -/
theorem distributeManual_uniform (d : ℚ) (g : Grid) (ws : List String)
    (i : ℕ) (w : String) (hw : ws[i]? = some w) :
    ((manualStarts d g ws)[i]? = some
      { word := w
        start := (i : ℚ) *
          ((max 1 ⌊((⌊d / g.quarter_note⌋ : ℤ) : ℚ) / (ws.length : ℚ)⌋ : ℤ) : ℚ) *
          g.quarter_note }) ∧
    (∀ text : String, ∀ dd : ℚ, ∀ gg : Grid,
      distributeManualLyrics text dd gg =
        processWords (manualStarts dd gg (tokenize text)) gg) ∧
    (∀ text : String, ∀ tk ∈ tokenize text, tk ≠ "") ∧
    ((calcGrid 100).quarter_note = 3 / 5 ∧
      ⌊(30 : ℚ) / (calcGrid 100).quarter_note⌋ = 50 ∧
      (max 1 ⌊((50 : ℤ) : ℚ) / ((10 : ℕ) : ℚ)⌋ : ℤ) = 5 ∧
      (manualStarts 30 (calcGrid 100) tenWords)[3]? = some { word := "w3", start := 9 } ∧
      ((processWords (manualStarts 30 (calcGrid 100) tenWords) (calcGrid 100)).map
        GridEntry.raw_start)[3]? = some 9) := by
  refine ⟨manualStarts_getElem? d g ws i w hw, fun _ _ _ => rfl, ?_, ?_, ?_, ?_, ?_, ?_⟩
  · intro text tk htk
    rw [tokenize, List.mem_filter] at htk
    simpa using htk.2
  · norm_num [calcGrid]
  · norm_num [calcGrid]
  · norm_num
  · have h3 := manualStarts_getElem? 30 (calcGrid 100) tenWords 3 "w3" rfl
    rw [h3]
    congr 2
    show (3 : ℚ) * _ * _ = 9
    norm_num [calcGrid, tenWords]
  · have h3 := manualStarts_getElem? 30 (calcGrid 100) tenWords 3 "w3" rfl
    rw [List.getElem?_map, processWords, List.getElem?_map, h3]
    show some (round4 ((3 : ℚ) * _ * _)) = some 9
    norm_num [calcGrid, tenWords, round4, jsRound]

/-- C6 witness: ten words, duration 30 s, tempo-100 grid, index 3. -/
theorem distributeManual_uniform_witness :
    tenWords[3]? = some "w3" ∧
      (((manualStarts 30 (calcGrid 100) tenWords)[3]? = some
        { word := "w3"
          start := (3 : ℚ) *
            ((max 1 ⌊((⌊(30 : ℚ) / (calcGrid 100).quarter_note⌋ : ℤ) : ℚ) /
              (tenWords.length : ℚ)⌋ : ℤ) : ℚ) *
            (calcGrid 100).quarter_note }) ∧
      (∀ text : String, ∀ dd : ℚ, ∀ gg : Grid,
        distributeManualLyrics text dd gg =
          processWords (manualStarts dd gg (tokenize text)) gg) ∧
      (∀ text : String, ∀ tk ∈ tokenize text, tk ≠ "") ∧
      ((calcGrid 100).quarter_note = 3 / 5 ∧
        ⌊(30 : ℚ) / (calcGrid 100).quarter_note⌋ = 50 ∧
        (max 1 ⌊((50 : ℤ) : ℚ) / ((10 : ℕ) : ℚ)⌋ : ℤ) = 5 ∧
        (manualStarts 30 (calcGrid 100) tenWords)[3]? =
          some { word := "w3", start := 9 } ∧
        ((processWords (manualStarts 30 (calcGrid 100) tenWords) (calcGrid 100)).map
          GridEntry.raw_start)[3]? = some 9)) :=
  ⟨rfl, distributeManual_uniform 30 (calcGrid 100) tenWords 3 "w3" rfl⟩

/-- A loaded session at tempo 100 with no entries. -/
def session100 : Session :=
  { bpm := some 100, duration := some 10, grid := some (calcGrid 100), lyricsGrid := [] }

/-- C7 counterexample: on the re-detect path, a failed detection leaves the
current tempo (100, not 120) in place and does not signal manual entry. -/
theorem redetect_no_fallback_counterexample :
    redetectBPM (Except.error ()) session100 = (session100, false) ∧
    session100.bpm = some 100 ∧ (some (100 : ℚ) ≠ some (120 : ℚ)) := by
  refine ⟨rfl, rfl, ?_⟩
  intro h
  have h2 : (100 : ℚ) = 120 := Option.some.inj h
  norm_num at h2

/-- C7 amended: on the file-load path a failed or out-of-range detection
falls back to tempo 120 and signals that manual entry is required; on the
re-detect path a failed detection leaves the session unchanged and clears
the status without signaling. -/
theorem detect_fallback (raw : Except Unit ℚ) (s : Session)
    (h : detectBPM raw = none) :
    (handleFileBPM raw s).1.bpm = some 120 ∧
    (handleFileBPM raw s).2 = true ∧
    redetectBPM raw s = (s, false) ∧
    detectBPM (Except.error ()) = none ∧
    (∀ b : ℚ, b < 40 ∨ 280 < b → detectBPM (Except.ok b) = none) := by
  refine ⟨?_, ?_, ?_, rfl, ?_⟩
  · show (applyBPM ((detectBPM raw).getD 120) s).bpm = some 120
    rw [h]
    show (applyBPM 120 s).bpm = some 120
    rw [applyBPM, if_neg (by norm_num : ¬(120 : ℚ) ≤ 0)]
  · show (detectBPM raw).isNone = true
    rw [h]
    rfl
  · simp only [redetectBPM, h]
  · intro b hb
    rw [detectBPM, if_neg]
    rintro ⟨h1, h2⟩
    rcases hb with h3 | h3 <;> linarith

/-- C7 amended witness: a throwing detector against the sample session. -/
theorem detect_fallback_witness :
    detectBPM (Except.error ()) = none ∧
      ((handleFileBPM (Except.error ()) sampleSession).1.bpm = some 120 ∧
      (handleFileBPM (Except.error ()) sampleSession).2 = true ∧
      redetectBPM (Except.error ()) sampleSession = (sampleSession, false) ∧
      detectBPM (Except.error ()) = none ∧
      (∀ b : ℚ, b < 40 ∨ 280 < b → detectBPM (Except.ok b) = none)) :=
  ⟨rfl, detect_fallback (Except.error ()) sampleSession rfl⟩

theorem clips_total_eq_sum (clips : List Clip) :
    clips.foldl (fun s c => s + c.duration) 0 = (clips.map Clip.duration).sum := by
  rw [(clips.map Clip.duration).sum_eq_foldl, List.foldl_map]

/-- C9: the footage tracker computes the clip-duration sum, the raw percent
(0 with no song), the clamped fill percent, the floored-at-zero remaining
time, and the `done`/`over` flags, with the numeric label showing the
unclamped rounded percent; 200 s of clips against a 180 s song give
`rawPct = 1000/9`, `over`, a fill clamped to 100 and a label of 111. -/
theorem footage_tracker (duration : Option ℚ) (clips : List Clip) :
    (updateFootageTracker duration clips).rawPct =
      (if 0 < duration.getD 0 then
        (clips.map Clip.duration).sum / duration.getD 0 * 100 else 0) ∧
    (duration = none → (updateFootageTracker duration clips).rawPct = 0) ∧
    (updateFootageTracker duration clips).displayPct =
      min (updateFootageTracker duration clips).rawPct 100 ∧
    (updateFootageTracker duration clips).remaining =
      max (duration.getD 0 - (clips.map Clip.duration).sum) 0 ∧
    ((updateFootageTracker duration clips).done = true ↔
      100 ≤ (updateFootageTracker duration clips).rawPct) ∧
    ((updateFootageTracker duration clips).over = true ↔
      100 < (updateFootageTracker duration clips).rawPct) ∧
    updateFootageTracker (some 180)
        [{ name := "a", duration := 120 }, { name := "b", duration := 80 }] =
      { rawPct := 1000 / 9, displayPct := 100, remaining := 0,
        done := true, over := true, pctLabel := 111 } := by
  have hTot : ∀ cs : List Clip,
      cs.foldl (fun s c => s + c.duration) 0 = (cs.map Clip.duration).sum :=
    clips_total_eq_sum
  refine ⟨?_, ?_, ?_, ?_, ?_, ?_, ?_⟩
  · simp only [updateFootageTracker, hTot]
  · intro hnone
    subst hnone
    simp [updateFootageTracker]
  · simp only [updateFootageTracker]
  · simp only [updateFootageTracker, hTot]
  · simp only [updateFootageTracker, decide_eq_true_eq]
  · simp only [updateFootageTracker, decide_eq_true_eq]
  · simp only [updateFootageTracker, FootageStats.mk.injEq, Option.getD_some]
    norm_num [jsRound]

/-- C9 witness: a 180 s song with 120 s and 80 s clips. -/
theorem footage_tracker_witness :
    (updateFootageTracker (some 180)
        [{ name := "a", duration := 120 }, { name := "b", duration := 80 }]).rawPct =
      (if 0 < (some (180 : ℚ)).getD 0 then
        (([{ name := "a", duration := 120 },
           { name := "b", duration := 80 }] : List Clip).map Clip.duration).sum /
          (some (180 : ℚ)).getD 0 * 100 else 0) ∧
    ((some (180 : ℚ) = none) → (updateFootageTracker (some 180)
        [{ name := "a", duration := 120 }, { name := "b", duration := 80 }]).rawPct = 0) ∧
    (updateFootageTracker (some 180)
        [{ name := "a", duration := 120 }, { name := "b", duration := 80 }]).displayPct =
      min (updateFootageTracker (some 180)
        [{ name := "a", duration := 120 }, { name := "b", duration := 80 }]).rawPct 100 ∧
    (updateFootageTracker (some 180)
        [{ name := "a", duration := 120 }, { name := "b", duration := 80 }]).remaining =
      max ((some (180 : ℚ)).getD 0 -
        (([{ name := "a", duration := 120 },
           { name := "b", duration := 80 }] : List Clip).map Clip.duration).sum) 0 ∧
    ((updateFootageTracker (some 180)
        [{ name := "a", duration := 120 }, { name := "b", duration := 80 }]).done = true ↔
      100 ≤ (updateFootageTracker (some 180)
        [{ name := "a", duration := 120 }, { name := "b", duration := 80 }]).rawPct) ∧
    ((updateFootageTracker (some 180)
        [{ name := "a", duration := 120 }, { name := "b", duration := 80 }]).over = true ↔
      100 < (updateFootageTracker (some 180)
        [{ name := "a", duration := 120 }, { name := "b", duration := 80 }]).rawPct) ∧
    updateFootageTracker (some 180)
        [{ name := "a", duration := 120 }, { name := "b", duration := 80 }] =
      { rawPct := 1000 / 9, displayPct := 100, remaining := 0,
        done := true, over := true, pctLabel := 111 } :=
  footage_tracker (some 180) [{ name := "a", duration := 120 }, { name := "b", duration := 80 }]

/-- C10: `processWords` stores `raw_start` and `snapped_start` already
rounded to 4 decimal places (both are fixed points of `round4`), and
`buildJSON` places the stored entry sequence in `lyrics_grid` verbatim. -/
theorem processWords_round4_export (words : List RawWord) (g : Grid)
    (track : String) (bpm duration : ℚ) (g2 : Grid) (entries : List GridEntry) :
    (∀ ent ∈ processWords words g,
      round4 ent.raw_start = ent.raw_start ∧
      round4 ent.snapped_start = ent.snapped_start) ∧
    (buildJSON track bpm duration g2 entries).lyrics_grid = entries :=
  ⟨processWords_raw_fix words g, rfl⟩

/-- C10 witness: one word at 1/3 s against the tempo-120 grid. -/
theorem processWords_round4_export_witness :
    (∀ ent ∈ processWords [{ word := "a", start := 1 / 3 }] (calcGrid 120),
      round4 ent.raw_start = ent.raw_start ∧
      round4 ent.snapped_start = ent.snapped_start) ∧
    (buildJSON "t" 120 10 (calcGrid 120) [sampleEntry]).lyrics_grid = [sampleEntry] :=
  processWords_round4_export [{ word := "a", start := 1 / 3 }] (calcGrid 120)
    "t" 120 10 (calcGrid 120) [sampleEntry]

end MVForge
